import Mathlib

/-!
Verification of the streamflow descriptive-statistics pipeline
(`program_10.py`): data cleaning, date-range clipping, per-period
hydrologic metric calculators, and the two summary reducers.

Embedding conventions:
* a daily discharge reading is `Option ℚ`; `none` models a missing value
  (pandas `NaN`);
* a dated series is a `List ((ℕ × ℕ) × Option ℚ)` only where the calendar
  matters; metric calculators receive the bare `List (Option ℚ)`
  sub-sequence, exactly as `resample(...).apply(f)` passes each group's
  values (missing markers retained in place);
* pandas reductions with `skipna` semantics are modelled by dropping
  `none` entries; a float result of `NaN` (and the `±inf` produced by a
  zero denominator) is modelled as `none`.
-/

namespace Program10

/-- A single discharge reading: `none` is the missing marker (`NaN`). -/
abbrev Q : Type := Option ℚ

/-- `Series.dropna()`: remove missing entries, preserving order. -/
def dropna (Qvalues : List Q) : List ℚ := Qvalues.filterMap id

/-- Arithmetic mean of a list of rationals (`Series.mean()` on defined
entries; meaningful only for nonempty input). -/
def meanOf (d : List ℚ) : ℚ := d.sum / d.length

/-- `Series.median()` of defined entries: middle element of the sorted
list, or the average of the two middle elements; `none` when empty. -/
def medianOf (d : List ℚ) : Option ℚ :=
  if d.length = 0 then none
  else
    let s := d.mergeSort (fun a b => a ≤ b)
    let n := s.length
    if n % 2 = 1 then some (s.getD (n / 2) 0)
    else some ((s.getD (n / 2 - 1) 0 + s.getD (n / 2) 0) / 2)

/-- The cleaning core of `ReadData` (program_10.py lines 36-42), after the
external file parsing: the missing-value count is taken on the RAW
discharge column (`DataDF["Discharge"].isna().sum()`), and only then is
every negative discharge rewritten to missing
(`DataDF.Discharge[(DataDF['Discharge']<0)]=np.nan`). -/
def ReadData (raw : List Q) : List Q × ℕ :=
  let MissingValues := raw.countP fun x => x.isNone
  let cleaned := raw.map fun x =>
    match x with
    | some v => if v < 0 then none else some v
    | none => none
  (cleaned, MissingValues)

/-- `ClipData` (program_10.py lines 44-54): `DataDF.loc[startDate:endDate]`
on a monotone date index keeps exactly the rows whose date lies in the
inclusive range (an empty slice when `startDate > endDate`), then the
missing count is recomputed on the clipped frame.  Dates are day numbers. -/
def ClipData (DataDF : List (ℕ × Q)) (startDate endDate : ℕ) :
    List (ℕ × Q) × ℕ :=
  let clipped := DataDF.filter fun o =>
    decide (startDate ≤ o.1) && decide (o.1 ≤ endDate)
  (clipped, clipped.countP fun o => o.2.isNone)

/-- The possible failure of the clip operation, per the specification. -/
inductive ClipError : Type
  | invalidRange
deriving DecidableEq

/-- Modelled from the spec: "fails with `InvalidRange` if
`startDate > endDate`", otherwise returns the observations with date in
`[startDate, endDate]` inclusive together with the missing count.  This
definition follows the spec's words; the source has no such error path. -/
def ClipDataSpec (DataDF : List (ℕ × Q)) (startDate endDate : ℕ) :
    Except ClipError (List (ℕ × Q) × ℕ) :=
  if endDate < startDate then Except.error ClipError.invalidRange
  else
    let clipped := DataDF.filter fun o =>
      decide (startDate ≤ o.1) && decide (o.1 ≤ endDate)
    Except.ok (clipped, clipped.countP fun o => o.2.isNone)

/-- `CalcTqmean` (program_10.py lines 56-68): drop missing values, then
`(data_q > data_q.mean()).sum() / len(data_q)`.  On an empty filtered
series numpy evaluates `0 / 0` to `NaN`, modelled as `none`. -/
def CalcTqmean (Qvalues : List Q) : Option ℚ :=
  let data_q := dropna Qvalues
  if data_q.length = 0 then none
  else some (((data_q.countP fun x => decide (meanOf data_q < x)) : ℚ) /
    (data_q.length : ℚ))

/-- `CalcRBindex` (program_10.py lines 70-90): drop missing values, sum the
absolute day-to-day differences of the filtered series
(`abs(data_q.diff()).sum()`), and divide by `Qvalues.sum()` (a `skipna`
sum, so missing entries contribute zero).  A zero denominator gives float
`NaN` or `inf`, modelled as `none`. -/
def CalcRBindex (Qvalues : List Q) : Option ℚ :=
  let data_q := dropna Qvalues
  let Total_abs := (List.zipWith (fun a b => |b - a|) data_q data_q.tail).sum
  let Total_discharge := (dropna Qvalues).sum
  if Total_discharge = 0 then none else some (Total_abs / Total_discharge)

/-- The list of 7-entry trailing-window averages produced by
`data_q.rolling(7).mean()` after its leading `NaN`s are discarded: entry
`i` is the average of elements `i .. i+6` of the filtered series.  Empty
when fewer than 7 entries exist. -/
def rolling7Means (d : List ℚ) : List ℚ :=
  (List.range (d.length - 6)).map fun i => ((d.drop i).take 7).sum / 7

/-- `Calc7Q` (program_10.py lines 92-106): drop missing values, take
`(data_q.rolling(7).mean()).min()`.  With fewer than 7 filtered entries
every rolling value is `NaN` and the min is `NaN`, modelled as `none`. -/
def Calc7Q (Qvalues : List Q) : Option ℚ :=
  (rolling7Means (dropna Qvalues)).min?

/-- `CalcExceed3TimesMedian` (program_10.py lines 108-123): drop missing
values, count entries strictly greater than three times the median
(`data_q > (data_q.median())*3`).  The count is an integer and is returned
even on empty input (comparisons against `NaN` are all false, so the count
is 0); it is never `NaN`, hence the result is always `some`. -/
def CalcExceed3TimesMedian (Qvalues : List Q) : Option ℕ :=
  let data_q := dropna Qvalues
  match medianOf data_q with
  | none => some (data_q.countP fun _ => false)
  | some m => some (data_q.countP fun x => decide (m * 3 < x))

/-- The `Mean Flow` column of `GetAnnualStatistics` /
`GetMonthlyStatistics` per period: `resample(...).mean()`, the `skipna`
mean of the period's discharges; `NaN` (`none`) when no entry is defined. -/
def MeanFlow (Qvalues : List Q) : Option ℚ :=
  let d := dropna Qvalues
  if d.length = 0 then none else some (meanOf d)

/-- The `Peak Flow` column per period: `resample(...).max()`, the `skipna`
maximum; `NaN` (`none`) when no entry is defined. -/
def PeakFlow (Qvalues : List Q) : Option ℚ :=
  (dropna Qvalues).max?

/-- The `Median Flow` column per period: `resample(...).median()`. -/
def MedianFlow (Qvalues : List Q) : Option ℚ :=
  medianOf (dropna Qvalues)

/-- Sample variance (`ddof = 1`) of a list of rationals, used by
`Series.std()`; meaningful only when at least two entries exist. -/
def sampleVar (d : List ℚ) : ℚ :=
  ((d.map fun x => (x - meanOf d) ^ 2).sum) / ((d.length : ℚ) - 1)

/-- The `Coeff Var` column per period:
`resample(...).std() / resample(...).mean() * 100`.  `Series.std()` is
`NaN` for fewer than two defined entries; a zero mean makes the quotient
`NaN` or `±inf`.  All three are modelled as `none`. -/
noncomputable def CoeffVar (Qvalues : List Q) : Option ℝ :=
  let d := dropna Qvalues
  if d.length < 2 ∨ d.sum = 0 then none
  else some (Real.sqrt (sampleVar d) / (meanOf d : ℝ) * 100)

/-- The `Skew` column per period: `scipy.stats.skew` applied to the raw
group (default `nan_policy` propagates, so any missing entry — and an
empty group — yields `NaN`); the biased Fisher-Pearson coefficient
`m3 / m2^(3/2)` is `0/0 = NaN` when the data are constant (`m2 = 0`). -/
noncomputable def Skew (Qvalues : List Q) : Option ℝ :=
  if Qvalues.length = 0 ∨ Qvalues.any fun x => x.isNone then none
  else
    let d := dropna Qvalues
    let m2 := ((d.map fun x => (x - meanOf d) ^ 2).sum) / (d.length : ℚ)
    let m3 := ((d.map fun x => (x - meanOf d) ^ 3).sum) / (d.length : ℚ)
    if m2 = 0 then none else some ((m3 : ℝ) / Real.sqrt ((m2 : ℝ) ^ 3))

/-- Column mean with `skipna`: the mean of the defined entries of one
column, `none` when every entry is missing. -/
def colMean (xs : List Q) : Q :=
  let v := xs.filterMap id
  if v.length = 0 then none else some (v.sum / (v.length : ℚ))

/-- `DataFrame.mean(axis=0)`: the column-wise `skipna` mean of a table
whose rows all share the width of the first row. -/
def columnwiseMean (rows : List (List Q)) : List Q :=
  let w := (rows.head?.map List.length).getD 0
  (List.range w).map fun j => colMean (rows.map fun r => r.getD j none)

/-- `GetAnnualAverages` (program_10.py lines 174-181):
`WYDataDF.mean(axis=0)`, the column-wise mean over every column of the
water-year table — the `site_no` column included. -/
def GetAnnualAverages (WYDataDF : List (List Q)) : List Q :=
  columnwiseMean WYDataDF

/-- `GetMonthlyAverages` (program_10.py lines 183-190):
`MoDataDF.groupby(by=[MoDataDF.index.month]).mean()`.  A monthly row is
`((year, month), values)`; grouping is by the month number alone, group
keys come out sorted (pandas `groupby` sorts), and each group is reduced
by the column-wise `skipna` mean. -/
def GetMonthlyAverages (MoDataDF : List ((ℕ × ℕ) × List Q)) :
    List (ℕ × List Q) :=
  let months := (MoDataDF.map fun r => r.1.2).toFinset
  (months.sort (fun a b => a ≤ b)).map fun m =>
    (m, columnwiseMean ((MoDataDF.filter fun r => r.1.2 == m).map Prod.snd))

/-! ## Helper lemmas -/

instance : Std.Antisymm ((· ≤ ·) : ℚ → ℚ → Prop) where
  antisymm h h' := le_antisymm h h'

/-- Characterization of `List.min?` over `ℚ`: the minimum is a member and
a lower bound. -/
theorem min?_spec {l : List ℚ} {a : ℚ} (h : l.min? = some a) :
    a ∈ l ∧ ∀ b ∈ l, a ≤ b := by
  have h2 := (List.min?_eq_some_iff (fun (a : ℚ) => le_refl a)
    (fun a b => min_choice a b) (fun a b c => le_min_iff)).mp h
  exact ⟨h2.1, fun b hb => h2.2 b hb⟩

/-- If `dropna` returns the empty list, every entry of the input was the
missing marker. -/
theorem eq_none_of_dropna_eq_nil {Qvalues : List Q}
    (h : dropna Qvalues = []) : ∀ x ∈ Qvalues, x = none := by
  intro x hx
  have h2 := List.filterMap_eq_nil_iff.mp h
  simpa using h2 x hx

/-! ## C1: behavior of `ClipData` on a reversed date range -/

/-- C1 (counterexample): the claim says a clip with `startDate > endDate`
fails with an `InvalidRange` error surfaced to the caller.  The code has
no such error path: at the concrete series `[(2, some 5)]` with the
reversed range `5 > 3`, `ClipData` returns the successful pair
`([], 0)` — an (empty) clipped series — while the spec-modelled operation
demands `InvalidRange`. -/
theorem clipData_reversed_range_counterexample :
    ClipData [(2, some 5)] 5 3 = ([], 0) ∧
    ClipDataSpec [(2, some 5)] 5 3 = Except.error ClipError.invalidRange :=
  ⟨rfl, rfl⟩

/-- C1 (amended): for every series and every pair of clip dates with
`startDate > endDate`, `ClipData` does not fail: it returns the empty
clipped series together with a missing count of `0`. -/
theorem clipData_reversed_range_returns_empty (DataDF : List (ℕ × Q))
    (startDate endDate : ℕ) (h : endDate < startDate) :
    ClipData DataDF startDate endDate = ([], 0) := by
  have hf : (DataDF.filter fun o =>
      decide (startDate ≤ o.1) && decide (o.1 ≤ endDate)) = [] := by
    rw [List.filter_eq_nil_iff]
    intro o _
    simp only [Bool.and_eq_true, decide_eq_true_eq, not_and]
    intro h1 h2
    omega
  simp only [ClipData, hf]
  rfl

/-- C1 (witness): the amended statement at a concrete reversed range. -/
theorem clipData_reversed_range_returns_empty_witness :
    ClipData [(2, some 5), (7, some 1)] 6 4 = ([], 0) :=
  clipData_reversed_range_returns_empty [(2, some 5), (7, some 1)] 6 4
    (by decide)

/-! ## C7: `ClipData` on a valid range -/

/-- C7: for every series and every valid pair `startDate ≤ endDate`,
`ClipData` returns exactly the observations whose date lies in
`[startDate, endDate]` inclusive — a sublist of the input (original order
preserved), containing every in-range observation and nothing else —
together with the count of missing discharge entries of that clipped
sub-sequence. -/
theorem clipData_spec (DataDF : List (ℕ × Q)) (startDate endDate : ℕ)
    (_h : startDate ≤ endDate) :
    (ClipData DataDF startDate endDate).1.Sublist DataDF ∧
    (∀ o ∈ (ClipData DataDF startDate endDate).1,
      startDate ≤ o.1 ∧ o.1 ≤ endDate) ∧
    (∀ o ∈ DataDF, startDate ≤ o.1 → o.1 ≤ endDate →
      o ∈ (ClipData DataDF startDate endDate).1) ∧
    (ClipData DataDF startDate endDate).2 =
      (ClipData DataDF startDate endDate).1.countP fun o => o.2.isNone := by
  simp only [ClipData]
  refine ⟨List.filter_sublist _, ?_, ?_, trivial⟩
  · intro o ho
    have h2 := List.of_mem_filter ho
    simpa using h2
  · intro o ho h1 h2
    exact List.mem_filter.mpr ⟨ho, by simp [h1, h2]⟩

/-- C7 (witness): the missing-count clause at a concrete series and
range. -/
theorem clipData_spec_witness :
    (ClipData [(1, none), (2, some 3), (3, some 4)] 1 3).2 =
      (ClipData [(1, none), (2, some 3), (3, some 4)] 1 3).1.countP
        (fun o => o.2.isNone) :=
  (clipData_spec [(1, none), (2, some 3), (3, some 4)] 1 3 (by decide)).2.2.2

/-! ## C3: `ReadData` missing count precedes negative scrubbing -/

/-- Counting the missing entries of the cleaned series: scrubbing adds one
missing entry per negative raw discharge on top of the raw missing
entries (raw missing entries are never negative, so the two counts are
disjoint). -/
theorem cleaned_missing_count (raw : List Q) :
    ((raw.map fun x => match x with
        | some v => if v < 0 then none else some v
        | none => none).countP fun x => x.isNone) =
      raw.countP (fun x => x.isNone) +
        raw.countP (fun x => decide (x.getD 0 < 0)) := by
  induction raw with
  | nil => rfl
  | cons x t ih =>
    rw [List.map_cons, List.countP_cons, List.countP_cons, List.countP_cons,
      ih]
    cases x with
    | none => simp; omega
    | some v => by_cases hv : v < 0 <;> simp [hv] <;> omega

/-- C3: for every raw series, `ReadData` reports as its missing count the
number of entries already missing in the raw input (before negative
scrubbing); scrubbing then turns each negative discharge into a missing
entry without adding it to that count, so the cleaned series has
`missingAtIngestion + (number of negative raw entries)` missing entries.
In particular for raw discharges `[-5, 3, 4]` the count is `0`, and
clipping the cleaned, dated series over its full range reports `1`
missing value. -/
theorem readData_missing_count_spec (raw : List Q) :
    (ReadData raw).2 = raw.countP (fun x => x.isNone) ∧
    ((ReadData raw).1.countP fun x => x.isNone) =
      raw.countP (fun x => x.isNone) +
        raw.countP (fun x => decide (x.getD 0 < 0)) ∧
    ReadData [some (-5), some 3, some 4] = ([none, some 3, some 4], 0) ∧
    (ClipData ([1, 2, 3].zip (ReadData [some (-5), some 3, some 4]).1)
      1 3).2 = 1 := by
  exact ⟨rfl, cleaned_missing_count raw, by decide, by decide⟩

/-! ## C2: totality of the metric calculators on empty input -/

/-- C2 (counterexample): the claim says every metric calculator returns an
explicit undefined (not-a-number) result on an empty or all-missing
sub-sequence.  `CalcExceed3TimesMedian` does not: on the all-missing
sub-sequence `[none]` every comparison against the undefined median is
false and the integer count `0` is returned — a defined value, not an
undefined marker. -/
theorem calcExceed3TimesMedian_empty_counterexample :
    CalcExceed3TimesMedian [none] = some 0 ∧
    CalcExceed3TimesMedian [none] ≠ none := by
  exact ⟨rfl, by decide⟩

/-- C2 (amended): every metric calculator is total on an empty or
all-missing sub-sequence — none raises — and all of them except the
3×-median exceedance count return the undefined marker there; the
exceedance count instead returns the defined count `0`. -/
theorem metric_calculators_total_on_empty (Qvalues : List Q)
    (h : dropna Qvalues = []) :
    CalcTqmean Qvalues = none ∧ CalcRBindex Qvalues = none ∧
    Calc7Q Qvalues = none ∧ MeanFlow Qvalues = none ∧
    PeakFlow Qvalues = none ∧ MedianFlow Qvalues = none ∧
    CoeffVar Qvalues = none ∧ Skew Qvalues = none ∧
    CalcExceed3TimesMedian Qvalues = some 0 := by
  refine ⟨?_, ?_, ?_, ?_, ?_, ?_, ?_, ?_, ?_⟩
  · simp [CalcTqmean, h]
  · simp [CalcRBindex, h]
  · simp [Calc7Q, rolling7Means, h]
  · simp [MeanFlow, h]
  · simp [PeakFlow, h]
  · simp [MedianFlow, medianOf, h]
  · simp [CoeffVar, h]
  · have hall := eq_none_of_dropna_eq_nil h
    cases Qvalues with
    | nil => simp [Skew]
    | cons y t =>
      have hy : y = none := hall y (by simp)
      simp [Skew, hy]
  · simp [CalcExceed3TimesMedian, medianOf, h]

/-- C2 (witness): the amended statement at the concrete all-missing
sub-sequence `[none]`. -/
theorem metric_calculators_total_on_empty_witness :
    CalcTqmean [none] = none ∧ CalcRBindex [none] = none ∧
    Calc7Q [none] = none ∧ MeanFlow [none] = none ∧
    PeakFlow [none] = none ∧ MedianFlow [none] = none ∧
    CoeffVar [none] = none ∧ Skew [none] = none ∧
    CalcExceed3TimesMedian [none] = some 0 :=
  metric_calculators_total_on_empty [none] rfl

/-! ## C4: `CalcRBindex` -/

/-- The `skipna` sum of a series equals the sum of the series with missing
entries contributing zero. -/
theorem sum_dropna (Qvalues : List Q) :
    (dropna Qvalues).sum = (Qvalues.map fun x => x.getD 0).sum := by
  induction Qvalues with
  | nil => rfl
  | cons x t ih =>
    cases x with
    | none =>
      rw [List.map_cons]
      simpa [dropna, List.filterMap_cons] using ih
    | some v =>
      rw [List.map_cons]
      simp only [dropna, List.filterMap_cons] at ih ⊢
      simp [ih]

/-- C4: whenever the denominator is nonzero, `CalcRBindex` returns the sum
of absolute differences between consecutive entries of the filtered
(missing-removed, order-preserved) sub-sequence divided by the sum of the
sub-sequence with missing entries contributing zero; a missing day merges
its flanking days into one difference step (dropping a `none` concatenates
its two sides before differencing); and the constant sequence
`[10, 10, 10, 10]` has R-B index `0`. -/
theorem calcRBindex_spec :
    (∀ Qvalues : List Q, (Qvalues.map fun x => x.getD 0).sum ≠ 0 →
      CalcRBindex Qvalues = some
        ((List.zipWith (fun a b => |b - a|) (dropna Qvalues)
            (dropna Qvalues).tail).sum /
          (Qvalues.map fun x => x.getD 0).sum)) ∧
    (∀ pre post : List Q,
      dropna (pre ++ none :: post) = dropna pre ++ dropna post) ∧
    CalcRBindex [some 10, some 10, some 10, some 10] = some 0 := by
  refine ⟨?_, ?_, ?_⟩
  · intro Qvalues h
    have hs := sum_dropna Qvalues
    simp only [CalcRBindex]
    rw [hs, if_neg h]
  · intro pre post
    simp [dropna, List.filterMap_append, List.filterMap_cons]
  · simp only [CalcRBindex, dropna, List.filterMap_cons, id_eq,
      List.filterMap_nil]
    norm_num

/-- C4 (witness): the formula at a concrete sub-sequence with an interior
missing day. -/
theorem calcRBindex_spec_witness :
    CalcRBindex [some 1, none, some 3] = some
      ((List.zipWith (fun a b => |b - a|) (dropna [some 1, none, some 3])
          (dropna [some 1, none, some 3]).tail).sum /
        ([some 1, none, some 3].map fun x => x.getD 0).sum) :=
  calcRBindex_spec.1 [some 1, none, some 3] (by norm_num)

/-! ## C5: `Calc7Q` -/

/-- C5: `Calc7Q` is undefined exactly when fewer than 7 filtered entries
exist, and any defined result is the minimum over all length-7 trailing
windows of the filtered sub-sequence of the window's average: it is one of
the window averages and is at most every window average. -/
theorem calc7Q_spec (Qvalues : List Q) :
    (Calc7Q Qvalues = none ↔ (dropna Qvalues).length < 7) ∧
    ∀ v : ℚ, Calc7Q Qvalues = some v →
      v ∈ rolling7Means (dropna Qvalues) ∧
      ∀ w ∈ rolling7Means (dropna Qvalues), v ≤ w := by
  constructor
  · rw [Calc7Q, List.min?_eq_none_iff]
    unfold rolling7Means
    simp only [List.map_eq_nil_iff, List.range_eq_nil]
    omega
  · intro v hv
    exact min?_spec hv

/-- C5 (witness): a period with only 5 non-missing entries has undefined
7Q, and the defined 7Q of the 7-entry period `1, …, 7` is the (single)
window average `4`. -/
theorem calc7Q_spec_witness :
    Calc7Q [some 1, some 2, some 3, some 4, some 5] = none ∧
    (4 : ℚ) ∈ rolling7Means
      (dropna [some 1, some 2, some 3, some 4, some 5, some 6, some 7]) :=
  ⟨(calc7Q_spec [some 1, some 2, some 3, some 4, some 5]).1.mpr (by decide),
   ((calc7Q_spec [some 1, some 2, some 3, some 4, some 5, some 6,
      some 7]).2 4 (by
        simp only [Calc7Q, rolling7Means, dropna, List.filterMap_cons, id_eq,
          List.filterMap_nil]
        norm_num [List.range_succ])).1⟩

/-! ## C6: `CalcTqmean` -/

/-- C6: on any sub-sequence with at least one non-missing entry,
`CalcTqmean` returns the number of filtered entries strictly greater than
the filtered mean divided by the number of filtered entries, a value in
`[0, 1]`; for the discharges `1, …, 10` the result is `1/2`. -/
theorem calcTqmean_spec :
    (∀ Qvalues : List Q, dropna Qvalues ≠ [] →
      CalcTqmean Qvalues = some
          ((((dropna Qvalues).countP fun x =>
              decide (meanOf (dropna Qvalues) < x)) : ℚ) /
            ((dropna Qvalues).length : ℚ)) ∧
      ∀ v : ℚ, CalcTqmean Qvalues = some v → 0 ≤ v ∧ v ≤ 1) ∧
    CalcTqmean (([1, 2, 3, 4, 5, 6, 7, 8, 9, 10] : List ℚ).map some) =
      some (1 / 2) := by
  refine ⟨?_, by
    simp only [List.map_cons, List.map_nil, CalcTqmean, dropna,
      List.filterMap_cons, id_eq, List.filterMap_nil, meanOf]
    norm_num [List.countP_cons, List.countP_nil]⟩
  intro Qvalues h
  have hlen : ¬(dropna Qvalues).length = 0 := by
    simpa [List.length_eq_zero] using h
  constructor
  · simp only [CalcTqmean, if_neg hlen]
  · intro v hv
    have hlen' : (0 : ℚ) < ((dropna Qvalues).length : ℚ) := by
      exact_mod_cast Nat.pos_of_ne_zero hlen
    simp only [CalcTqmean, if_neg hlen, Option.some.injEq] at hv
    subst hv
    constructor
    · positivity
    · rw [div_le_one hlen']
      exact_mod_cast List.countP_le_length _

/-- C6 (witness): the `[0, 1]` bounds at the concrete period `1, …, 10`,
whose Tqmean is `1/2`. -/
theorem calcTqmean_spec_witness :
    (0 : ℚ) ≤ 1 / 2 ∧ (1 / 2 : ℚ) ≤ 1 :=
  (calcTqmean_spec.1 (([1, 2, 3, 4, 5, 6, 7, 8, 9, 10] : List ℚ).map some)
    (by decide)).2 (1 / 2) (by
      simp only [List.map_cons, List.map_nil, CalcTqmean, dropna,
        List.filterMap_cons, id_eq, List.filterMap_nil, meanOf]
      norm_num [List.countP_cons, List.countP_nil])

/-! ## C8: 7Q versus Mean Flow -/

/-- C8 (counterexample): the claim says 7Q ≤ Mean Flow whenever both are
defined on non-negative discharges.  The non-negative 8-day period
`0, 1, 1, 1, 1, 1, 1, 0` refutes it: both of its length-7 trailing
windows average `6/7`, so 7Q `= 6/7`, while the mean flow is
`6/8 = 3/4 < 6/7`. -/
theorem sevenQ_le_meanFlow_counterexample :
    (((dropna [some 0, some 1, some 1, some 1, some 1, some 1, some 1,
        some 0]).all fun x => decide (0 ≤ x)) = true) ∧
    Calc7Q [some 0, some 1, some 1, some 1, some 1, some 1, some 1,
      some 0] = some (6 / 7) ∧
    MeanFlow [some 0, some 1, some 1, some 1, some 1, some 1, some 1,
      some 0] = some (3 / 4) ∧
    (3 / 4 : ℚ) < 6 / 7 := by
  refine ⟨by decide, ?_, ?_, by norm_num⟩
  · simp only [Calc7Q, rolling7Means, dropna, List.filterMap_cons, id_eq,
      List.filterMap_nil]
    norm_num [List.range_succ]
  · simp only [MeanFlow, dropna, List.filterMap_cons, id_eq,
      List.filterMap_nil, meanOf]
    norm_num

/-- Splitting the sum of a list of length `7 * k` into the sums of its `k`
consecutive 7-element chunks. -/
theorem sum_chunks7 (k : ℕ) : ∀ d : List ℚ, d.length = 7 * k →
    d.sum = ((List.range k).map fun j => ((d.drop (7 * j)).take 7).sum).sum := by
  induction k with
  | zero =>
    intro d hd
    have hnil : d = [] := List.length_eq_zero.mp (by omega)
    simp [hnil]
  | succ k ih =>
    intro d hd
    have hlen7 : (d.drop 7).length = 7 * k := by
      simp only [List.length_drop]
      omega
    have hdrop : ∀ j : ℕ, (d.drop 7).drop (7 * j) = d.drop (7 * (j + 1)) := by
      intro j
      rw [List.drop_drop]
      congr 1
      ring
    have hmap : List.map (fun j => (((d.drop 7).drop (7 * j)).take 7).sum)
        (List.range k) =
        List.map ((fun j => ((d.drop (7 * j)).take 7).sum) ∘ Nat.succ)
          (List.range k) := by
      refine List.map_congr_left fun j _ => ?_
      simp only [Function.comp_apply, Nat.succ_eq_add_one]
      rw [hdrop j]
    calc d.sum = (d.take 7).sum + (d.drop 7).sum := by
          rw [← List.sum_append, List.take_append_drop]
      _ = (d.take 7).sum +
          ((List.range k).map fun j =>
            (((d.drop 7).drop (7 * j)).take 7).sum).sum := by rw [ih _ hlen7]
      _ = ((List.range (k + 1)).map fun j =>
            ((d.drop (7 * j)).take 7).sum).sum := by
          simp only [List.range_succ_eq_map, List.map_cons, List.sum_cons,
            List.map_map, Nat.mul_zero, List.drop_zero]
          rw [hmap]

/-- C8 (amended): for every period of non-negative discharges whose
filtered length is a multiple of 7, whenever both 7Q and Mean Flow are
defined, 7Q ≤ Mean Flow.  (Without the divisibility requirement the
original claim is false: overlapping trailing windows can all average
above the overall mean when a short remainder is left over.) -/
theorem sevenQ_le_meanFlow_of_multiple (Qvalues : List Q)
    (_hpos : ∀ x ∈ dropna Qvalues, 0 ≤ x)
    (hdvd : 7 ∣ (dropna Qvalues).length) :
    ∀ v m : ℚ, Calc7Q Qvalues = some v → MeanFlow Qvalues = some m →
      v ≤ m := by
  intro v m hv hm
  obtain ⟨k, hk⟩ := hdvd
  have hv' : (rolling7Means (dropna Qvalues)).min? = some v := hv
  obtain ⟨hvmem, hvle⟩ := min?_spec hv'
  have hne : rolling7Means (dropna Qvalues) ≠ [] := by
    intro hnil
    rw [hnil] at hv'
    simp at hv'
  have hlen7 : 7 ≤ (dropna Qvalues).length := by
    by_contra hlt
    apply hne
    unfold rolling7Means
    simp only [List.map_eq_nil_iff, List.range_eq_nil]
    omega
  have hkpos : 0 < k := by omega
  have hne0 : ¬(dropna Qvalues).length = 0 := by omega
  simp only [MeanFlow, if_neg hne0, Option.some.injEq] at hm
  have hchunk' : ∀ j ∈ List.range k,
      (7 : ℚ) * v ≤ (((dropna Qvalues).drop (7 * j)).take 7).sum := by
    intro j hj
    have hjk := List.mem_range.mp hj
    have hmem : (((dropna Qvalues).drop (7 * j)).take 7).sum / 7 ∈
        rolling7Means (dropna Qvalues) := by
      unfold rolling7Means
      refine List.mem_map.mpr ⟨7 * j, List.mem_range.mpr ?_, rfl⟩
      omega
    have hle := hvle _ hmem
    linarith
  have hsum := sum_chunks7 k (dropna Qvalues) hk
  have hconst : ((List.range k).map fun _ => (7 : ℚ) * v).sum =
      (k : ℚ) * (7 * v) := by
    rw [List.map_const']
    simp [List.sum_replicate, nsmul_eq_mul]
  have hsumge : (k : ℚ) * (7 * v) ≤ (dropna Qvalues).sum := by
    rw [hsum, ← hconst]
    exact List.sum_le_sum hchunk'
  have hlenpos : (0 : ℚ) < ((dropna Qvalues).length : ℚ) := by
    exact_mod_cast Nat.pos_of_ne_zero hne0
  have hlen : ((dropna Qvalues).length : ℚ) = 7 * (k : ℚ) := by
    exact_mod_cast congrArg (Nat.cast : ℕ → ℚ) hk
  rw [← hm]
  unfold meanOf
  rw [le_div_iff₀ hlenpos, hlen]
  linarith

/-- C8 (witness): the amended statement at the 7-day non-negative period
`1, …, 7`, where 7Q and Mean Flow are both `4`. -/
theorem sevenQ_le_meanFlow_of_multiple_witness : (4 : ℚ) ≤ 4 :=
  sevenQ_le_meanFlow_of_multiple
    [some 1, some 2, some 3, some 4, some 5, some 6, some 7]
    (by decide) (by decide) 4 4
    (by
      simp only [Calc7Q, rolling7Means, dropna, List.filterMap_cons, id_eq,
        List.filterMap_nil]
      norm_num [List.range_succ])
    (by
      simp only [MeanFlow, dropna, List.filterMap_cons, id_eq,
        List.filterMap_nil, meanOf]
      norm_num)

/-! ## C9: `GetMonthlyAverages` -/

/-- C9 (counterexample): the claim says the result always has exactly 12
rows, one per month number.  A monthly table whose rows cover only one
calendar month refutes it: grouping the single-row table for month 1
yields a one-row result. -/
theorem getMonthlyAverages_single_month_counterexample :
    GetMonthlyAverages [((2000, 1), [some 5])] = [(1, [some 5])] ∧
    (GetMonthlyAverages [((2000, 1), [some 5])]).length ≠ 12 := by
  have h : GetMonthlyAverages [((2000, 1), [some 5])] = [(1, [some 5])] := by
    simp [GetMonthlyAverages, columnwiseMean, colMean, List.range_succ]
  exact ⟨h, by rw [h]; decide⟩

/-- C9 (amended): `GetMonthlyAverages` groups monthly rows by calendar
month number irrespective of year and reduces each group by the
column-wise mean: the result carries one row per distinct month number
present in the table, in increasing month-number order, whose value is
the column-wise mean of that month's rows.  It has exactly 12 rows iff
every month number 1–12 occurs in the table (always the case for a table
spanning at least one full year of months, but not in general). -/
theorem getMonthlyAverages_spec (MoDataDF : List ((ℕ × ℕ) × List Q)) :
    List.Sorted (· < ·) ((GetMonthlyAverages MoDataDF).map Prod.fst) ∧
    (∀ m : ℕ, m ∈ (GetMonthlyAverages MoDataDF).map Prod.fst ↔
      ∃ r ∈ MoDataDF, r.1.2 = m) ∧
    (∀ p ∈ GetMonthlyAverages MoDataDF,
      p.2 = columnwiseMean
        ((MoDataDF.filter fun r => r.1.2 == p.1).map Prod.snd)) ∧
    ((∀ r ∈ MoDataDF, r.1.2 ∈ Finset.Icc 1 12) →
      ((GetMonthlyAverages MoDataDF).length = 12 ↔
        ∀ m ∈ Finset.Icc 1 12, ∃ r ∈ MoDataDF, r.1.2 = m)) := by
  have hkeys : (GetMonthlyAverages MoDataDF).map Prod.fst =
      ((MoDataDF.map fun r => r.1.2).toFinset).sort (fun a b => a ≤ b) := by
    simp only [GetMonthlyAverages, List.map_map]
    exact List.map_id _
  refine ⟨?_, ?_, ?_, ?_⟩
  · rw [hkeys]
    exact Finset.sort_sorted_lt _
  · intro m
    rw [hkeys, Finset.mem_sort, List.mem_toFinset, List.mem_map]
  · intro p hp
    simp only [GetMonthlyAverages, List.mem_map] at hp
    obtain ⟨m, _, rfl⟩ := hp
    rfl
  · intro hsub
    have hlen : (GetMonthlyAverages MoDataDF).length =
        ((MoDataDF.map fun r => r.1.2).toFinset).card := by
      calc (GetMonthlyAverages MoDataDF).length
          = ((GetMonthlyAverages MoDataDF).map Prod.fst).length :=
            (List.length_map _ _).symm
        _ = (((MoDataDF.map fun r => r.1.2).toFinset).sort
              (fun a b => a ≤ b)).length := by rw [hkeys]
        _ = ((MoDataDF.map fun r => r.1.2).toFinset).card :=
            Finset.length_sort _
    have hsub' : (MoDataDF.map fun r => r.1.2).toFinset ⊆
        Finset.Icc 1 12 := by
      intro m hm
      rw [List.mem_toFinset] at hm
      obtain ⟨r, hr, rfl⟩ := List.mem_map.mp hm
      exact hsub r hr
    rw [hlen]
    constructor
    · intro hcard m hmIcc
      have heq : (MoDataDF.map fun r => r.1.2).toFinset =
          Finset.Icc 1 12 := by
        apply Finset.eq_of_subset_of_card_le hsub'
        rw [Nat.card_Icc]
        omega
      have hmem : m ∈ (MoDataDF.map fun r => r.1.2).toFinset :=
        heq ▸ hmIcc
      rw [List.mem_toFinset] at hmem
      exact List.mem_map.mp hmem
    · intro hall
      have hsup : Finset.Icc 1 12 ⊆ (MoDataDF.map fun r => r.1.2).toFinset := by
        intro m hm
        obtain ⟨r, hr, hrm⟩ := hall m hm
        rw [List.mem_toFinset]
        exact List.mem_map.mpr ⟨r, hr, hrm⟩
      rw [Finset.Subset.antisymm hsub' hsup, Nat.card_Icc]

/-- C9 (witness): at a two-month table the group keys come out sorted and,
the table containing only months 1 and 3, the result does not have 12
rows. -/
theorem getMonthlyAverages_spec_witness :
    List.Sorted (· < ·) ((GetMonthlyAverages
      [((2000, 3), [some 2]), ((1999, 1), [some 4])]).map Prod.fst) ∧
    (GetMonthlyAverages
      [((2000, 3), [some 2]), ((1999, 1), [some 4])]).length ≠ 12 := by
  constructor
  · exact (getMonthlyAverages_spec
      [((2000, 3), [some 2]), ((1999, 1), [some 4])]).1
  · intro h12
    have hiff := (getMonthlyAverages_spec
      [((2000, 3), [some 2]), ((1999, 1), [some 4])]).2.2.2 (by decide)
    exact absurd (hiff.mp h12 2 (by decide)) (by decide)

/-! ## C10: `GetAnnualAverages` -/

/-- Dropping the `some` wrappers from a replicated defined value. -/
theorem filterMap_id_replicate_some (n : ℕ) (s : ℚ) :
    (List.replicate n (some s)).filterMap id = List.replicate n s := by
  induction n with
  | zero => rfl
  | succ k ih => simp [List.replicate_succ, ih]

/-- The `skipna` column mean of a nonempty constant column is that
constant. -/
theorem colMean_const {xs : List Q} {s : ℚ} (hne : xs ≠ [])
    (hconst : ∀ x ∈ xs, x = some s) : colMean xs = some s := by
  have hrep : xs = List.replicate xs.length (some s) :=
    List.eq_replicate_iff.mpr ⟨rfl, hconst⟩
  have hn : xs.length ≠ 0 := by
    simpa [List.length_eq_zero] using hne
  rw [colMean]
  conv_lhs => rw [hrep]
  rw [filterMap_id_replicate_some]
  rw [List.length_replicate, if_neg hn, List.sum_replicate, nsmul_eq_mul]
  congr 1
  have hq : (xs.length : ℚ) ≠ 0 := by exact_mod_cast hn
  field_simp

/-- C10: `GetAnnualAverages` takes the column-wise `skipna` mean of every
column of the water-year table, the `site_no` column (column 0) included:
the returned vector has one entry per column, entry `j` is the mean of
the defined entries of column `j`, and in particular the vector contains
an averaged `site_no` entry — equal to the common station id exactly
because that column is constant. -/
theorem getAnnualAverages_spec (WYDataDF : List (List Q)) (s : ℚ)
    (hne : WYDataDF ≠ [])
    (hsite : ∀ r ∈ WYDataDF, r.getD 0 none = some s) :
    (GetAnnualAverages WYDataDF).length =
      ((WYDataDF.head?.map List.length).getD 0) ∧
    (∀ j < (WYDataDF.head?.map List.length).getD 0,
      (GetAnnualAverages WYDataDF).getD j none =
        colMean (WYDataDF.map fun r => r.getD j none)) ∧
    (GetAnnualAverages WYDataDF).getD 0 none = some s := by
  have hentry : ∀ j < (WYDataDF.head?.map List.length).getD 0,
      (GetAnnualAverages WYDataDF).getD j none =
        colMean (WYDataDF.map fun r => r.getD j none) := by
    intro j hj
    simp only [GetAnnualAverages, columnwiseMean]
    rw [List.getD_eq_getElem?_getD, List.getElem?_map, List.getElem?_range hj]
    rfl
  have hw : 0 < (WYDataDF.head?.map List.length).getD 0 := by
    obtain ⟨r0, t, rfl⟩ : ∃ r0 t, WYDataDF = r0 :: t := by
      cases WYDataDF with
      | nil => exact absurd rfl hne
      | cons r0 t => exact ⟨r0, t, rfl⟩
    have h0 := hsite r0 (by simp)
    have : r0 ≠ [] := by
      intro hr0
      rw [hr0] at h0
      simp at h0
    simp only [List.head?_cons, Option.map_some, Option.getD_some]
    exact List.length_pos.mpr this
  refine ⟨?_, hentry, ?_⟩
  · simp [GetAnnualAverages, columnwiseMean]
  · rw [hentry 0 hw]
    apply colMean_const
    · simpa [List.map_eq_nil_iff] using hne
    · intro x hx
      obtain ⟨r, hr, rfl⟩ := List.mem_map.mp hx
      exact hsite r hr

/-- C10 (witness): at a two-row table with constant `site_no` column `7`,
the first entry of the summary vector is `7`. -/
theorem getAnnualAverages_spec_witness :
    (GetAnnualAverages [[some 7, some 1], [some 7, none]]).getD 0 none =
      some 7 :=
  (getAnnualAverages_spec [[some 7, some 1], [some 7, none]] 7 (by decide)
    (by decide)).2.2

end Program10
